import Mathlib

/-!
Verification of the cryptocurrency ledger schema
(`examples/cryptocurrency-advanced/backend/src/schema.rs`).

The schema is embedded shallowly:

* `Address` and `Hash` are modelled as opaque identifiers (`Nat`).
* The merkledb maps (`wallets`, `confirmed_transaction`) and the per-account
  `ProofListIndex` group (`wallet_history`) become fields of `LedgerState`.
* Unsigned 64-bit balances are `Nat` with the bound `U64_MOD = 2 ^ 64` made
  explicit; the Rust `u64 as i64` cast is modelled exactly by `toI64`.
* A ledger mutation returns `Except Err LedgerState`: per the spec (§5, §7) a
  failed operation is atomic — it leaves the stored state untouched — so an
  `Except.error` result carries no successor state, and `stateOf` reads back
  the unchanged pre-state in that case.
-/

namespace Exonum

/-- The modulus of the unsigned 64-bit integers used for balances. -/
def U64_MOD : Nat := 2 ^ 64

/-- Modelled from the spec: `INITIAL_BALANCE`, the "fixed configured starting
amount" credited on wallet creation (§6).  The defining constant lives in the
crate root, which is not part of the schema source; its concrete value is
irrelevant to every claim, `100` is used as a stand-in. -/
def INITIAL_BALANCE : Nat := 100

/-- Modelled from the spec: the `object_hash` digest of a `ProofListIndex`,
"a deterministic function of the ordered sequence of appended identifiers
only" (§4.1).  The Merkle computation itself belongs to the external storage
engine, so any concrete deterministic function of the ordered list serves;
an injective `Nat.pair` fold is used. -/
def objectHash (l : List Nat) : Nat :=
  l.foldl (fun a x => Nat.pair a x + 1) 0

/-- Modelled from the spec: the `Wallet` record of §3 (`wallet.rs` is not part
of the schema source).  Field order follows the `Wallet::new` call in
`create_wallet`: owner, name, balance, frozen balance, history length,
history hash. -/
structure Wallet where
  owner : Nat
  name : String
  balance : Nat
  frozen_balance : Nat
  history_len : Nat
  history_hash : Nat
deriving DecidableEq

/-- Modelled from the spec: the `Wallet::new` constructor (§3). -/
def Wallet.new (owner : Nat) (name : String)
    (balance frozen_balance history_len history_hash : Nat) : Wallet :=
  ⟨owner, name, balance, frozen_balance, history_len, history_hash⟩

/-- Modelled from the spec: `Wallet::set_balance` returns a copy with the new
balance and the freshly recomputed history digest, and bumps `history_len` by
one — forced by the §3 invariant ("`history_len` and `history_hash` are …
recomputed and stored together on every mutation") together with the §8
scenario `increaseWalletBalance(A, 50, h2) → history_len = 2`, since the
setter receives only the digest, not the log length. -/
def Wallet.set_balance (w : Wallet) (balance : Nat) (history_hash : Nat) : Wallet :=
  { w with balance := balance, history_len := w.history_len + 1, history_hash := history_hash }

/-- Modelled from the spec: `Wallet::set_frozen_balance`, symmetric to
`Wallet.set_balance` — it stores the new frozen balance and digest and bumps
`history_len` by one, forced by the §8 scenario
`createSendApproveTransaction(A, 30, B, C, h3) → history_len(A) = 3` (that
operation reaches the wallet through a single `set_frozen_balance` call). -/
def Wallet.set_frozen_balance (w : Wallet) (frozen_balance : Nat) (history_hash : Nat) : Wallet :=
  { w with frozen_balance := frozen_balance, history_len := w.history_len + 1,
           history_hash := history_hash }

/-- The `TxSendApprove` escrow-release record stored in the confirmed
transaction registry: recipient, amount and approver (spec §3,
`TransactionRecord`). -/
structure TxSendApprove where
  to' : Nat
  amount : Nat
  approver : Nat
deriving DecidableEq

/-- The `TxSendApprove::new` constructor. -/
def TxSendApprove.new (to' amount approver : Nat) : TxSendApprove :=
  ⟨to', amount, approver⟩

/-- Error kinds of the spec's §7 taxonomy. -/
inductive Err where
  | insufficientFunds
  | arithmeticOverflow
  | walletNotFound
deriving DecidableEq

/-- The schema state: the `wallets` proof map, the `wallet_history` group of
proof lists, and the `confirmed_transaction` proof map of `SchemaImpl`. -/
structure LedgerState where
  wallets : Nat → Option Wallet
  wallet_history : Nat → List Nat
  confirmed_transaction : Nat → Option TxSendApprove

/-- The empty database. -/
def LedgerState.empty : LedgerState :=
  ⟨fun _ => none, fun _ => [], fun _ => none⟩

/-- The state an operation leaves behind: the successor state on success and,
since per the spec (§5, §7) a failed operation "must not partially apply",
the untouched pre-state on failure. -/
def stateOf (r : Except Err LedgerState) (s : LedgerState) : LedgerState :=
  match r with
  | Except.ok s1 => s1
  | Except.error _ => s

/-- The Rust `u64 as i64` wrapping cast, on the mathematical value. -/
def toI64 (v : Nat) : Int :=
  if v < 2 ^ 63 then (v : Int) else (v : Int) - (U64_MOD : Int)

/-- `SchemaImpl::create_wallet`: appends the transaction hash to the key's
history and stores `Wallet::new(key, name, INITIAL_BALANCE, 0, history.len(),
&history_hash)`.  Total, exactly as in the source — no precondition is
enforced. -/
def create_wallet (s : LedgerState) (key : Nat) (name : String) (transaction : Nat) :
    LedgerState :=
  let history := s.wallet_history key ++ [transaction]
  let history_hash := objectHash history
  let wallet := Wallet.new key name INITIAL_BALANCE 0 history.length history_hash
  { s with wallets := Function.update s.wallets key (some wallet),
           wallet_history := Function.update s.wallet_history key history }

/-- Modelled from the spec: `SchemaImpl::increase_wallet_balance` with the
explicit overflow check of §7 ("`ArithmeticOverflow` … must be checked
explicitly") — the schema source itself performs the unchecked unsigned
addition `balance + amount`, and the surfacing of the failure lies outside
the schema file.  On success the state transition is exactly the source's:
push the transaction onto the owner's history, recompute the digest, store
`wallet.set_balance(balance + amount, &history_hash)` under `wallet.owner`. -/
def increase_wallet_balance (s : LedgerState) (wallet : Wallet) (amount : Nat)
    (transaction : Nat) : Except Err LedgerState :=
  let history := s.wallet_history wallet.owner ++ [transaction]
  let history_hash := objectHash history
  let balance := wallet.balance
  if balance + amount < U64_MOD then
    let wallet := wallet.set_balance (balance + amount) history_hash
    let wallet_key := wallet.owner
    Except.ok { s with wallets := Function.update s.wallets wallet_key (some wallet),
                       wallet_history := Function.update s.wallet_history wallet_key history }
  else Except.error Err.arithmeticOverflow

/-- Modelled from the spec: `SchemaImpl::decrease_wallet_balance` with the
`InsufficientFunds` guard of §4.4 ("Precondition: `amount <= balance`;
violating it is unsigned underflow in the source and must be surfaced as an
explicit `InsufficientFunds` failure") — the schema source computes the
unchecked unsigned subtraction `balance - amount`, and the enforcing check
lives in the transaction layer outside the schema file.  On success the state
transition is exactly the source's: push the transaction onto the owner's
history, recompute the digest, store
`wallet.set_balance(balance - amount, &history_hash)` under `wallet.owner`. -/
def decrease_wallet_balance (s : LedgerState) (wallet : Wallet) (amount : Nat)
    (transaction : Nat) : Except Err LedgerState :=
  let history := s.wallet_history wallet.owner ++ [transaction]
  let history_hash := objectHash history
  let balance := wallet.balance
  if amount ≤ balance then
    let wallet := wallet.set_balance (balance - amount) history_hash
    let wallet_key := wallet.owner
    Except.ok { s with wallets := Function.update s.wallets wallet_key (some wallet),
                       wallet_history := Function.update s.wallet_history wallet_key history }
  else Except.error Err.insufficientFunds

/-- Modelled from the spec: `SchemaImpl::increase_frozen_balance` with the
range guard of §4.4 ("result must not go negative or overflow the unsigned
representation; reject otherwise") — in the schema source the computation is
`((wallet.frozen_balance as i64) + frozen_balance_change) as u64`, whose
wrapping casts compose to addition modulo `2 ^ 64`, so inside the guarded
range the stored value is exactly `frozen_balance + frozen_balance_change`.
A negative result is rejected as `insufficientFunds`, an overflowing one as
`arithmeticOverflow`.  On success the state transition is the source's: push
the transaction onto the owner's history, recompute the digest, store
`wallet.set_frozen_balance(result, &history_hash)` under `wallet.owner`. -/
def increase_frozen_balance (s : LedgerState) (wallet : Wallet)
    (frozen_balance_change : Int) (transaction : Nat) : Except Err LedgerState :=
  let history := s.wallet_history wallet.owner ++ [transaction]
  let history_hash := objectHash history
  let result : Int := (wallet.frozen_balance : Int) + frozen_balance_change
  if result < 0 then Except.error Err.insufficientFunds
  else if (U64_MOD : Int) ≤ result then Except.error Err.arithmeticOverflow
  else
    let wallet := wallet.set_frozen_balance result.toNat history_hash
    let wallet_key := wallet.owner
    Except.ok { s with wallets := Function.update s.wallets wallet_key (some wallet),
                       wallet_history := Function.update s.wallet_history wallet_key history }

/-- Modelled from the spec: `SchemaImpl::decrease_frozen_balance` with the
`InsufficientFunds` guard of §4.4 ("Precondition: `delta <= frozen_balance`
and `delta <= balance`; otherwise fail with `InsufficientFunds`") — the
schema source computes both unchecked unsigned subtractions.  On success the
state transition is exactly the source's: push the transaction onto the
owner's history, recompute the digest, then apply `set_frozen_balance` with
`frozen_balance - delta` followed by `set_balance` with `balance - delta`,
and store the result under `wallet.owner`. -/
def decrease_frozen_balance (s : LedgerState) (wallet : Wallet)
    (frozen_balance_change : Nat) (transaction : Nat) : Except Err LedgerState :=
  let history := s.wallet_history wallet.owner ++ [transaction]
  let history_hash := objectHash history
  if frozen_balance_change ≤ wallet.frozen_balance ∧ frozen_balance_change ≤ wallet.balance then
    let dif_froz := wallet.frozen_balance - frozen_balance_change
    let dif_bal := wallet.balance - frozen_balance_change
    let wallet := wallet.set_frozen_balance dif_froz history_hash
    let wallet := wallet.set_balance dif_bal history_hash
    let wallet_key := wallet.owner
    Except.ok { s with wallets := Function.update s.wallets wallet_key (some wallet),
                       wallet_history := Function.update s.wallet_history wallet_key history }
  else Except.error Err.insufficientFunds

/-- `SchemaImpl::create_send_approve_transaction`: first
`increase_frozen_balance(wallet, amount as i64, transaction)` — the cast is
the wrapping `toI64` of the source — then `confirmed_transaction.put(&
transaction, TxSendApprove::new(to, amount, approver))`.  If the escrow step
fails, the registry write is not reached (spec §5 atomicity). -/
def create_send_approve_transaction (s : LedgerState) (wallet : Wallet) (amount : Nat)
    (to' approver : Nat) (transaction : Nat) : Except Err LedgerState :=
  match increase_frozen_balance s wallet (toI64 amount) transaction with
  | Except.ok s1 =>
      Except.ok { s1 with
        confirmed_transaction :=
          Function.update s1.confirmed_transaction transaction
            (some (TxSendApprove.new to' amount approver)) }
  | Except.error e => Except.error e

/-- A balance mutation step of the dispatcher: `increase_wallet_balance` or
`decrease_wallet_balance` with its amount and transaction hash (spec §8,
first testable property). -/
inductive BalOp where
  | inc (amount transaction : Nat)
  | dec (amount transaction : Nat)

/-- The signed delta a balance step contributes: increases count positive,
decreases negative. -/
def BalOp.delta : BalOp → Int
  | BalOp.inc a _ => (a : Int)
  | BalOp.dec a _ => -(a : Int)

/-- The signed sum of the deltas of a sequence of balance steps. -/
def signedSum (ops : List BalOp) : Int :=
  (ops.map BalOp.delta).sum

/-- The dispatcher's read-then-pass loop over balance mutations (spec §4.4:
"caller supplies the current Wallet value"): each step fetches the stored
wallet for `key` and hands it to the schema operation; a missing wallet is
the spec's `WalletNotFound`, and the first failing step aborts the run. -/
def runBal (key : Nat) : LedgerState → List BalOp → Except Err LedgerState
  | s, [] => Except.ok s
  | s, op :: rest =>
    match s.wallets key with
    | none => Except.error Err.walletNotFound
    | some w =>
      match (match op with
             | BalOp.inc a tx => increase_wallet_balance s w a tx
             | BalOp.dec a tx => decrease_wallet_balance s w a tx) with
      | Except.ok s1 => runBal key s1 rest
      | Except.error e => Except.error e

/-- Success shape of `increase_wallet_balance`: under the overflow guard the
operation stores the updated wallet under its owner and the extended history. -/
theorem increase_wallet_balance_ok (s : LedgerState) (w : Wallet) (a tx : Nat)
    (h : w.balance + a < U64_MOD) :
    increase_wallet_balance s w a tx = Except.ok
      { s with
        wallets := Function.update s.wallets w.owner
          (some (w.set_balance (w.balance + a) (objectHash (s.wallet_history w.owner ++ [tx])))),
        wallet_history := Function.update s.wallet_history w.owner
          (s.wallet_history w.owner ++ [tx]) } := by
  simp only [increase_wallet_balance]
  rw [if_pos h]
  rfl

/-- Failure shape of `increase_wallet_balance`. -/
theorem increase_wallet_balance_err (s : LedgerState) (w : Wallet) (a tx : Nat)
    (h : ¬ w.balance + a < U64_MOD) :
    increase_wallet_balance s w a tx = Except.error Err.arithmeticOverflow := by
  simp only [increase_wallet_balance]
  rw [if_neg h]

/-- Success shape of `decrease_wallet_balance`. -/
theorem decrease_wallet_balance_ok (s : LedgerState) (w : Wallet) (a tx : Nat)
    (h : a ≤ w.balance) :
    decrease_wallet_balance s w a tx = Except.ok
      { s with
        wallets := Function.update s.wallets w.owner
          (some (w.set_balance (w.balance - a) (objectHash (s.wallet_history w.owner ++ [tx])))),
        wallet_history := Function.update s.wallet_history w.owner
          (s.wallet_history w.owner ++ [tx]) } := by
  simp only [decrease_wallet_balance]
  rw [if_pos h]
  rfl

/-- Failure shape of `decrease_wallet_balance`. -/
theorem decrease_wallet_balance_err (s : LedgerState) (w : Wallet) (a tx : Nat)
    (h : ¬ a ≤ w.balance) :
    decrease_wallet_balance s w a tx = Except.error Err.insufficientFunds := by
  simp only [decrease_wallet_balance]
  rw [if_neg h]

/-- Success shape of `increase_frozen_balance`: inside the guarded range the
stored frozen balance is the mathematical sum. -/
theorem increase_frozen_balance_ok (s : LedgerState) (w : Wallet) (d : Int) (tx : Nat)
    (h0 : 0 ≤ (w.frozen_balance : Int) + d)
    (h1 : (w.frozen_balance : Int) + d < (U64_MOD : Int)) :
    increase_frozen_balance s w d tx = Except.ok
      { s with
        wallets := Function.update s.wallets w.owner
          (some (w.set_frozen_balance ((w.frozen_balance : Int) + d).toNat
            (objectHash (s.wallet_history w.owner ++ [tx])))),
        wallet_history := Function.update s.wallet_history w.owner
          (s.wallet_history w.owner ++ [tx]) } := by
  simp only [increase_frozen_balance]
  rw [if_neg (by omega), if_neg (by omega)]
  rfl

/-- Success shape of `decrease_frozen_balance`: both subtractions applied,
through `set_frozen_balance` followed by `set_balance`. -/
theorem decrease_frozen_balance_ok (s : LedgerState) (w : Wallet) (d tx : Nat)
    (h : d ≤ w.frozen_balance ∧ d ≤ w.balance) :
    decrease_frozen_balance s w d tx = Except.ok
      { s with
        wallets := Function.update s.wallets w.owner
          (some ((w.set_frozen_balance (w.frozen_balance - d)
              (objectHash (s.wallet_history w.owner ++ [tx]))).set_balance
            (w.balance - d) (objectHash (s.wallet_history w.owner ++ [tx])))),
        wallet_history := Function.update s.wallet_history w.owner
          (s.wallet_history w.owner ++ [tx]) } := by
  simp only [decrease_frozen_balance]
  rw [if_pos h]
  rfl

/-- Failure shape of `decrease_frozen_balance`. -/
theorem decrease_frozen_balance_err (s : LedgerState) (w : Wallet) (d tx : Nat)
    (h : ¬ (d ≤ w.frozen_balance ∧ d ≤ w.balance)) :
    decrease_frozen_balance s w d tx = Except.error Err.insufficientFunds := by
  simp only [decrease_frozen_balance]
  rw [if_neg h]

/-- C1: for every wallet and amount, if `amount > wallet.balance` then
`decrease_wallet_balance` fails with `InsufficientFunds`, and the stored
wallet map and the account's history log are exactly as before the call —
the failing operation produces no successor state, and the post-state read
back through `stateOf` is the untouched pre-state. -/
theorem C1_decrease_wallet_balance_insufficient (s : LedgerState) (w : Wallet)
    (amount tx : Nat) (h : w.balance < amount) :
    decrease_wallet_balance s w amount tx = Except.error Err.insufficientFunds ∧
    (stateOf (decrease_wallet_balance s w amount tx) s).wallets = s.wallets ∧
    (stateOf (decrease_wallet_balance s w amount tx) s).wallet_history = s.wallet_history := by
  have h1 : ¬ amount ≤ w.balance := by omega
  rw [decrease_wallet_balance_err s w amount tx h1]
  exact ⟨rfl, rfl, rfl⟩

/-- Witness for C1 at a concrete input: balance 100, requested amount 1100. -/
theorem C1_decrease_wallet_balance_insufficient_witness :
    decrease_wallet_balance LedgerState.empty (Wallet.new 0 "alice" 100 0 1 0) 1100 5 =
      Except.error Err.insufficientFunds :=
  (C1_decrease_wallet_balance_insufficient LedgerState.empty
    (Wallet.new 0 "alice" 100 0 1 0) 1100 5 (by decide)).1

/-- C6: `create_wallet` appends the transaction hash to the address's history
and writes a wallet whose balance is `INITIAL_BALANCE`, whose frozen balance
is `0`, whose `history_len` is the new log length and whose `history_hash`
is the digest of the new log.  The operation is a total function — it has no
error return and enforces no precondition. -/
theorem C6_create_wallet_spec (s : LedgerState) (key : Nat) (nm : String) (tx : Nat) :
    (create_wallet s key nm tx).wallet_history key = s.wallet_history key ++ [tx] ∧
    (create_wallet s key nm tx).wallets key =
      some (Wallet.new key nm INITIAL_BALANCE 0
        ((create_wallet s key nm tx).wallet_history key).length
        (objectHash ((create_wallet s key nm tx).wallet_history key))) := by
  simp only [create_wallet]
  simp [Function.update_same]

/-- C9: on an address that already holds a wallet, `create_wallet` silently
overwrites it with a fresh wallet — balance `INITIAL_BALANCE`, frozen balance
`0`, the newly supplied name — while the history log is retained and extended:
the stored `history_len` is the previous log length plus one, which is not `1`
once the previous log was nonempty. -/
theorem C9_create_wallet_overwrites (s : LedgerState) (key : Nat) (nm : String) (tx : Nat)
    (wOld : Wallet) (_hw : s.wallets key = some wOld) :
    (create_wallet s key nm tx).wallet_history key = s.wallet_history key ++ [tx] ∧
    (create_wallet s key nm tx).wallets key =
      some (Wallet.new key nm INITIAL_BALANCE 0 ((s.wallet_history key).length + 1)
        (objectHash (s.wallet_history key ++ [tx]))) ∧
    (s.wallet_history key ≠ [] →
      ∀ w1, (create_wallet s key nm tx).wallets key = some w1 → w1.history_len ≠ 1) := by
  simp only [create_wallet]
  rw [Function.update_same, Function.update_same]
  refine ⟨rfl, by simp [Wallet.new], ?_⟩
  intro hne w1 hw1
  have hlen : 0 < (s.wallet_history key).length := List.length_pos.mpr hne
  cases hw1
  simp only [Wallet.new, List.length_append, List.length_cons, List.length_nil]
  omega

/-- Witness for C9: address 0 already holds the wallet created by the first
`create_wallet` call; re-creating it under the name "bob" overwrites it and
extends the log to length 2. -/
theorem C9_create_wallet_overwrites_witness :
    (create_wallet (create_wallet LedgerState.empty 0 "alice" 1) 0 "bob" 2).wallets 0 =
      some (Wallet.new 0 "bob" INITIAL_BALANCE 0
        (((create_wallet LedgerState.empty 0 "alice" 1).wallet_history 0).length + 1)
        (objectHash ((create_wallet LedgerState.empty 0 "alice" 1).wallet_history 0 ++ [2]))) :=
  (C9_create_wallet_overwrites (create_wallet LedgerState.empty 0 "alice" 1) 0 "bob" 2
    (Wallet.new 0 "alice" INITIAL_BALANCE 0 1 (objectHash [1])) (by rfl)).2.1

/-- C2 (code bug): after the two successful mutations
`create_wallet(0, "alice", 1)` and `decrease_frozen_balance(·, 0, 2)` the
account's history log holds the 2 appended transaction hashes and the stored
`history_hash` is the digest of that ordered sequence, but the stored
`history_len` is 3, not 2 — `decrease_frozen_balance` reaches the wallet
through `set_frozen_balance` *and* `set_balance`, each of which bumps
`history_len`, while the operation appends only one history entry. -/
theorem C2_history_len_code_bug :
    ((stateOf (decrease_frozen_balance (create_wallet LedgerState.empty 0 "alice" 1)
        (Wallet.new 0 "alice" INITIAL_BALANCE 0 1 (objectHash [1])) 0 2)
        (create_wallet LedgerState.empty 0 "alice" 1)).wallet_history 0).length = 2 ∧
    ((stateOf (decrease_frozen_balance (create_wallet LedgerState.empty 0 "alice" 1)
        (Wallet.new 0 "alice" INITIAL_BALANCE 0 1 (objectHash [1])) 0 2)
        (create_wallet LedgerState.empty 0 "alice" 1)).wallets 0).map Wallet.history_len =
      some 3 ∧
    ((stateOf (decrease_frozen_balance (create_wallet LedgerState.empty 0 "alice" 1)
        (Wallet.new 0 "alice" INITIAL_BALANCE 0 1 (objectHash [1])) 0 2)
        (create_wallet LedgerState.empty 0 "alice" 1)).wallets 0).map Wallet.history_hash =
      some (objectHash [1, 2]) := by
  refine ⟨rfl, rfl, rfl⟩

/-- C3: with `delta ≤ frozen_balance` and `delta ≤ balance`,
`decrease_frozen_balance` appends the transaction hash to the owner's history
and, in the same single step, stores the wallet with `frozen_balance − delta`
and `balance − delta`; when `delta` exceeds either bound the operation fails
with `InsufficientFunds`. -/
theorem C3_decrease_frozen_balance_spec (s : LedgerState) (w : Wallet) (d tx : Nat) :
    (d ≤ w.frozen_balance ∧ d ≤ w.balance →
      (∃ s1, decrease_frozen_balance s w d tx = Except.ok s1) ∧
      (stateOf (decrease_frozen_balance s w d tx) s).wallet_history w.owner =
        s.wallet_history w.owner ++ [tx] ∧
      ((stateOf (decrease_frozen_balance s w d tx) s).wallets w.owner).map
          Wallet.frozen_balance = some (w.frozen_balance - d) ∧
      ((stateOf (decrease_frozen_balance s w d tx) s).wallets w.owner).map
          Wallet.balance = some (w.balance - d)) ∧
    (¬ (d ≤ w.frozen_balance ∧ d ≤ w.balance) →
      decrease_frozen_balance s w d tx = Except.error Err.insufficientFunds) := by
  constructor
  · intro h
    rw [decrease_frozen_balance_ok s w d tx h]
    refine ⟨⟨_, rfl⟩, ?_, ?_, ?_⟩ <;>
      simp [stateOf, Function.update_same, Wallet.set_balance, Wallet.set_frozen_balance]
  · intro h
    exact decrease_frozen_balance_err s w d tx h

/-- Witness for C3 at a concrete input: frozen balance 5, balance 10,
delta 3. -/
theorem C3_decrease_frozen_balance_spec_witness :
    (∃ s1, decrease_frozen_balance LedgerState.empty (Wallet.new 0 "alice" 10 5 1 0) 3 7 =
      Except.ok s1) ∧
    (stateOf (decrease_frozen_balance LedgerState.empty (Wallet.new 0 "alice" 10 5 1 0) 3 7)
        LedgerState.empty).wallet_history (Wallet.new 0 "alice" 10 5 1 0).owner =
      LedgerState.empty.wallet_history (Wallet.new 0 "alice" 10 5 1 0).owner ++ [7] ∧
    ((stateOf (decrease_frozen_balance LedgerState.empty (Wallet.new 0 "alice" 10 5 1 0) 3 7)
        LedgerState.empty).wallets (Wallet.new 0 "alice" 10 5 1 0).owner).map
      Wallet.frozen_balance = some ((Wallet.new 0 "alice" 10 5 1 0).frozen_balance - 3) ∧
    ((stateOf (decrease_frozen_balance LedgerState.empty (Wallet.new 0 "alice" 10 5 1 0) 3 7)
        LedgerState.empty).wallets (Wallet.new 0 "alice" 10 5 1 0).owner).map
      Wallet.balance = some ((Wallet.new 0 "alice" 10 5 1 0).balance - 3) :=
  (C3_decrease_frozen_balance_spec LedgerState.empty (Wallet.new 0 "alice" 10 5 1 0) 3 7).1
    (by decide)

/-- C7: `increase_frozen_balance` stores
`frozen_balance + frozen_balance_change` for the signed delta — a negative
delta decreases the frozen balance — and rejects, without applying anything,
any call whose result would be negative or would exceed the unsigned 64-bit
range. -/
theorem C7_increase_frozen_balance_spec (s : LedgerState) (w : Wallet) (d : Int) (tx : Nat) :
    (0 ≤ (w.frozen_balance : Int) + d ∧ (w.frozen_balance : Int) + d < (U64_MOD : Int) →
      (∃ s1, increase_frozen_balance s w d tx = Except.ok s1) ∧
      (stateOf (increase_frozen_balance s w d tx) s).wallet_history w.owner =
        s.wallet_history w.owner ++ [tx] ∧
      ((stateOf (increase_frozen_balance s w d tx) s).wallets w.owner).map
          (fun w1 => (w1.frozen_balance : Int)) = some ((w.frozen_balance : Int) + d)) ∧
    ((w.frozen_balance : Int) + d < 0 ∨ (U64_MOD : Int) ≤ (w.frozen_balance : Int) + d →
      (∃ e, increase_frozen_balance s w d tx = Except.error e) ∧
      stateOf (increase_frozen_balance s w d tx) s = s) := by
  constructor
  · rintro ⟨h0, h1⟩
    rw [increase_frozen_balance_ok s w d tx h0 h1]
    refine ⟨⟨_, rfl⟩, ?_, ?_⟩ <;>
      simp [stateOf, Function.update_same, Wallet.set_frozen_balance]
    omega
  · intro h
    have he : ∃ e, increase_frozen_balance s w d tx = Except.error e := by
      rcases h with h | h
      · exact ⟨Err.insufficientFunds, by simp only [increase_frozen_balance]; rw [if_pos h]⟩
      · refine ⟨Err.arithmeticOverflow, ?_⟩
        simp only [increase_frozen_balance]
        rw [if_neg (by omega), if_pos h]
    rcases he with ⟨e, he⟩
    rw [he]
    exact ⟨⟨e, rfl⟩, rfl⟩

/-- Witness for C7 at a concrete input: frozen balance 5, delta −3 — the
negative delta decreases the frozen balance to 2. -/
theorem C7_increase_frozen_balance_spec_witness :
    (∃ s1, increase_frozen_balance LedgerState.empty (Wallet.new 0 "alice" 10 5 1 0) (-3) 7 =
      Except.ok s1) ∧
    (stateOf (increase_frozen_balance LedgerState.empty (Wallet.new 0 "alice" 10 5 1 0) (-3) 7)
        LedgerState.empty).wallet_history (Wallet.new 0 "alice" 10 5 1 0).owner =
      LedgerState.empty.wallet_history (Wallet.new 0 "alice" 10 5 1 0).owner ++ [7] ∧
    ((stateOf (increase_frozen_balance LedgerState.empty (Wallet.new 0 "alice" 10 5 1 0) (-3) 7)
        LedgerState.empty).wallets (Wallet.new 0 "alice" 10 5 1 0).owner).map
      (fun w1 => (w1.frozen_balance : Int)) =
      some (((Wallet.new 0 "alice" 10 5 1 0).frozen_balance : Int) + (-3)) :=
  (C7_increase_frozen_balance_spec LedgerState.empty (Wallet.new 0 "alice" 10 5 1 0) (-3) 7).1
    (by constructor <;> decide)

/-- C8: when `balance + amount` would exceed the unsigned 64-bit range,
`increase_wallet_balance` signals an explicit `ArithmeticOverflow` failure
and applies nothing; otherwise it stores exactly `balance + amount` — it
never silently produces a wrapped balance. -/
theorem C8_increase_wallet_balance_overflow (s : LedgerState) (w : Wallet)
    (amount tx : Nat) :
    (U64_MOD ≤ w.balance + amount →
      increase_wallet_balance s w amount tx = Except.error Err.arithmeticOverflow ∧
      stateOf (increase_wallet_balance s w amount tx) s = s) ∧
    (w.balance + amount < U64_MOD →
      ((stateOf (increase_wallet_balance s w amount tx) s).wallets w.owner).map
        Wallet.balance = some (w.balance + amount)) := by
  constructor
  · intro h
    rw [increase_wallet_balance_err s w amount tx (by omega)]
    exact ⟨rfl, rfl⟩
  · intro h
    rw [increase_wallet_balance_ok s w amount tx h]
    simp [stateOf, Function.update_same, Wallet.set_balance]

/-- Witness for C8 at a concrete input: balance `2 ^ 64 − 1`, amount 1
overflows and is rejected. -/
theorem C8_increase_wallet_balance_overflow_witness :
    increase_wallet_balance LedgerState.empty
      (Wallet.new 0 "alice" (2 ^ 64 - 1) 0 1 0) 1 5 =
      Except.error Err.arithmeticOverflow :=
  ((C8_increase_wallet_balance_overflow LedgerState.empty
    (Wallet.new 0 "alice" (2 ^ 64 - 1) 0 1 0) 1 5).1 (by decide)).1

/-- C4 counterexample: the claim quantifies over every amount, but for
`amount = 2 ^ 63` the source's `amount as i64` cast wraps to `−2 ^ 63`, so on
a freshly created wallet (frozen balance 0) the escrow step does not raise the
frozen balance by the amount — the run rejects the negative result — and no
record is stored under the transaction hash. -/
theorem C4_counterexample :
    create_send_approve_transaction (create_wallet LedgerState.empty 0 "alice" 1)
      (Wallet.new 0 "alice" INITIAL_BALANCE 0 1 (objectHash [1])) (2 ^ 63) 5 6 2 =
      Except.error Err.insufficientFunds ∧
    (stateOf (create_send_approve_transaction (create_wallet LedgerState.empty 0 "alice" 1)
        (Wallet.new 0 "alice" INITIAL_BALANCE 0 1 (objectHash [1])) (2 ^ 63) 5 6 2)
      (create_wallet LedgerState.empty 0 "alice" 1)).confirmed_transaction 2 = none := by
  exact ⟨rfl, rfl⟩

/-- C4 (amended): for every amount below `2 ^ 63` — so the `u64 as i64` cast
preserves the value — and with `frozen_balance + amount` inside the unsigned
64-bit range, `create_send_approve_transaction` first escrows the amount via
`increase_frozen_balance` (raising the wallet's frozen balance by the amount
and appending the transaction hash to the owner's history) and then stores
`TxSendApprove{to, amount, approver}` in the confirmed-transaction registry
keyed by the transaction hash, so `confirmed` returns exactly that record. -/
theorem C4_create_send_approve_spec (s : LedgerState) (w : Wallet)
    (amount to1 approver tx : Nat)
    (hcast : amount < 2 ^ 63) (hrange : w.frozen_balance + amount < U64_MOD) :
    (∃ s1, create_send_approve_transaction s w amount to1 approver tx = Except.ok s1) ∧
    (stateOf (create_send_approve_transaction s w amount to1 approver tx) s).wallet_history
        w.owner = s.wallet_history w.owner ++ [tx] ∧
    ((stateOf (create_send_approve_transaction s w amount to1 approver tx) s).wallets
        w.owner).map Wallet.frozen_balance = some (w.frozen_balance + amount) ∧
    LedgerState.confirmed_transaction
        (stateOf (create_send_approve_transaction s w amount to1 approver tx) s) tx =
      some (TxSendApprove.new to1 amount approver) := by
  have hc : toI64 amount = (amount : Int) := by
    simp only [toI64]
    rw [if_pos hcast]
  have hok := increase_frozen_balance_ok s w (amount : Int) tx (by omega) (by omega)
  have he : create_send_approve_transaction s w amount to1 approver tx = Except.ok
      { (stateOf (increase_frozen_balance s w (amount : Int) tx) s) with
        confirmed_transaction :=
          Function.update
            (LedgerState.confirmed_transaction
              (stateOf (increase_frozen_balance s w (amount : Int) tx) s)) tx
            (some (TxSendApprove.new to1 amount approver)) } := by
    simp only [create_send_approve_transaction, hc]
    rw [hok]
    rfl
  rw [he]
  rw [hok]
  refine ⟨⟨_, rfl⟩, ?_, ?_, ?_⟩ <;>
    simp [stateOf, Function.update_same, Wallet.set_frozen_balance]
  omega

/-- Witness for C4 (amended) at the §8 scenario input:
`createSendApproveTransaction(A, 30, B, C, h3)`. -/
theorem C4_create_send_approve_spec_witness :
    (∃ s1, create_send_approve_transaction LedgerState.empty
      (Wallet.new 0 "alice" 100 0 1 0) 30 5 6 3 = Except.ok s1) ∧
    (stateOf (create_send_approve_transaction LedgerState.empty
        (Wallet.new 0 "alice" 100 0 1 0) 30 5 6 3) LedgerState.empty).wallet_history
        (Wallet.new 0 "alice" 100 0 1 0).owner =
      LedgerState.empty.wallet_history (Wallet.new 0 "alice" 100 0 1 0).owner ++ [3] ∧
    ((stateOf (create_send_approve_transaction LedgerState.empty
        (Wallet.new 0 "alice" 100 0 1 0) 30 5 6 3) LedgerState.empty).wallets
        (Wallet.new 0 "alice" 100 0 1 0).owner).map Wallet.frozen_balance =
      some ((Wallet.new 0 "alice" 100 0 1 0).frozen_balance + 30) ∧
    LedgerState.confirmed_transaction (stateOf (create_send_approve_transaction
        LedgerState.empty (Wallet.new 0 "alice" 100 0 1 0) 30 5 6 3) LedgerState.empty) 3 =
      some (TxSendApprove.new 5 30 6) :=
  C4_create_send_approve_spec LedgerState.empty (Wallet.new 0 "alice" 100 0 1 0)
    30 5 6 3 (by decide) (by decide)

/-- Accumulation invariant of the balance-mutation loop: from any state whose
stored wallet for `key` is owned by `key`, a successful run of `runBal` leaves
a wallet whose balance is the starting balance plus the signed sum of the
deltas, still owned by `key`. -/
theorem runBal_balance_sum (key : Nat) (ops : List BalOp) :
    ∀ s w s1, s.wallets key = some w → w.owner = key →
      runBal key s ops = Except.ok s1 →
      ∃ w1, s1.wallets key = some w1 ∧ w1.owner = key ∧
        (w1.balance : Int) = (w.balance : Int) + signedSum ops := by
  induction ops with
  | nil =>
    intro s w s1 hw hown hrun
    simp only [runBal] at hrun
    cases hrun
    exact ⟨w, hw, hown, by simp [signedSum]⟩
  | cons op rest ih =>
    intro s w s1 hw hown hrun
    simp only [runBal] at hrun
    rw [hw] at hrun
    simp only at hrun
    cases op with
    | inc a tx =>
      simp only at hrun
      by_cases hb : w.balance + a < U64_MOD
      · rw [increase_wallet_balance_ok s w a tx hb] at hrun
        simp only at hrun
        obtain ⟨w1, h1, h2, h3⟩ := ih _ _ _ (by rw [← hown]; exact Function.update_same ..)
          (by simp [Wallet.set_balance, hown]) hrun
        refine ⟨w1, h1, h2, ?_⟩
        rw [h3]
        simp only [Wallet.set_balance, signedSum, BalOp.delta, List.map_cons, List.sum_cons]
        push_cast
        ring
      · rw [increase_wallet_balance_err s w a tx hb] at hrun
        simp at hrun
    | dec a tx =>
      simp only at hrun
      by_cases hb : a ≤ w.balance
      · rw [decrease_wallet_balance_ok s w a tx hb] at hrun
        simp only at hrun
        obtain ⟨w1, h1, h2, h3⟩ := ih _ _ _ (by rw [← hown]; exact Function.update_same ..)
          (by simp [Wallet.set_balance, hown]) hrun
        refine ⟨w1, h1, h2, ?_⟩
        rw [h3]
        simp only [Wallet.set_balance, signedSum, BalOp.delta, List.map_cons, List.sum_cons]
        have : ((w.balance - a : Nat) : Int) = (w.balance : Int) - (a : Int) := by omega
        rw [this]
        ring
      · rw [decrease_wallet_balance_err s w a tx hb] at hrun
        simp at hrun

/-- C5: starting from wallet creation, any successfully applied sequence of
`increase_wallet_balance` / `decrease_wallet_balance` calls on the account —
each step reading the stored wallet and passing it in, none failing — leaves
a balance equal to `INITIAL_BALANCE` plus the signed sum of the applied
deltas (increases positive, decreases negative). -/
theorem C5_balance_signed_sum (s : LedgerState) (key : Nat) (nm : String) (tx : Nat)
    (ops : List BalOp) (s1 : LedgerState)
    (hrun : runBal key (create_wallet s key nm tx) ops = Except.ok s1) :
    ∃ w1, s1.wallets key = some w1 ∧
      (w1.balance : Int) = (INITIAL_BALANCE : Int) + signedSum ops := by
  have hw : (create_wallet s key nm tx).wallets key =
      some (Wallet.new key nm INITIAL_BALANCE 0 (s.wallet_history key ++ [tx]).length
        (objectHash (s.wallet_history key ++ [tx]))) := by
    simp only [create_wallet]
    exact Function.update_same ..
  obtain ⟨w1, h1, _, h3⟩ := runBal_balance_sum key ops _ _ _ hw rfl hrun
  exact ⟨w1, h1, h3⟩

/-- Witness for C5 at the §8 scenario: create the wallet, increase by 50,
decrease by 30 — the balance is `INITIAL_BALANCE + 20`. -/
theorem C5_balance_signed_sum_witness :
    ∃ w1, (stateOf (runBal 0 (create_wallet LedgerState.empty 0 "alice" 1)
        [BalOp.inc 50 2, BalOp.dec 30 3]) LedgerState.empty).wallets 0 = some w1 ∧
      (w1.balance : Int) =
        (INITIAL_BALANCE : Int) + signedSum [BalOp.inc 50 2, BalOp.dec 30 3] :=
  C5_balance_signed_sum LedgerState.empty 0 "alice" 1 [BalOp.inc 50 2, BalOp.dec 30 3]
    (stateOf (runBal 0 (create_wallet LedgerState.empty 0 "alice" 1)
      [BalOp.inc 50 2, BalOp.dec 30 3]) LedgerState.empty) (by rfl)

/-- Frame of `increase_wallet_balance`: only the owner's wallet entry and
history change, and the registry never does. -/
theorem increase_wallet_balance_frame (s : LedgerState) (w : Wallet) (a tx b : Nat)
    (hb : b ≠ w.owner) :
    (stateOf (increase_wallet_balance s w a tx) s).wallets b = s.wallets b ∧
    (stateOf (increase_wallet_balance s w a tx) s).wallet_history b = s.wallet_history b ∧
    (stateOf (increase_wallet_balance s w a tx) s).confirmed_transaction =
      s.confirmed_transaction := by
  by_cases h : w.balance + a < U64_MOD
  · rw [increase_wallet_balance_ok s w a tx h]
    exact ⟨Function.update_noteq hb .., Function.update_noteq hb .., rfl⟩
  · rw [increase_wallet_balance_err s w a tx h]
    exact ⟨rfl, rfl, rfl⟩

/-- Frame of `decrease_wallet_balance`. -/
theorem decrease_wallet_balance_frame (s : LedgerState) (w : Wallet) (a tx b : Nat)
    (hb : b ≠ w.owner) :
    (stateOf (decrease_wallet_balance s w a tx) s).wallets b = s.wallets b ∧
    (stateOf (decrease_wallet_balance s w a tx) s).wallet_history b = s.wallet_history b ∧
    (stateOf (decrease_wallet_balance s w a tx) s).confirmed_transaction =
      s.confirmed_transaction := by
  by_cases h : a ≤ w.balance
  · rw [decrease_wallet_balance_ok s w a tx h]
    exact ⟨Function.update_noteq hb .., Function.update_noteq hb .., rfl⟩
  · rw [decrease_wallet_balance_err s w a tx h]
    exact ⟨rfl, rfl, rfl⟩

/-- Frame of `increase_frozen_balance`. -/
theorem increase_frozen_balance_frame (s : LedgerState) (w : Wallet) (d : Int) (tx b : Nat)
    (hb : b ≠ w.owner) :
    (stateOf (increase_frozen_balance s w d tx) s).wallets b = s.wallets b ∧
    (stateOf (increase_frozen_balance s w d tx) s).wallet_history b = s.wallet_history b ∧
    (stateOf (increase_frozen_balance s w d tx) s).confirmed_transaction =
      s.confirmed_transaction := by
  by_cases h0 : (w.frozen_balance : Int) + d < 0
  · have : increase_frozen_balance s w d tx = Except.error Err.insufficientFunds := by
      simp only [increase_frozen_balance]
      rw [if_pos h0]
    rw [this]
    exact ⟨rfl, rfl, rfl⟩
  · by_cases h1 : (U64_MOD : Int) ≤ (w.frozen_balance : Int) + d
    · have : increase_frozen_balance s w d tx = Except.error Err.arithmeticOverflow := by
        simp only [increase_frozen_balance]
        rw [if_neg h0, if_pos h1]
      rw [this]
      exact ⟨rfl, rfl, rfl⟩
    · rw [increase_frozen_balance_ok s w d tx (by omega) (by omega)]
      exact ⟨Function.update_noteq hb .., Function.update_noteq hb .., rfl⟩

/-- Frame of `decrease_frozen_balance`. -/
theorem decrease_frozen_balance_frame (s : LedgerState) (w : Wallet) (d tx b : Nat)
    (hb : b ≠ w.owner) :
    (stateOf (decrease_frozen_balance s w d tx) s).wallets b = s.wallets b ∧
    (stateOf (decrease_frozen_balance s w d tx) s).wallet_history b = s.wallet_history b ∧
    (stateOf (decrease_frozen_balance s w d tx) s).confirmed_transaction =
      s.confirmed_transaction := by
  by_cases h : d ≤ w.frozen_balance ∧ d ≤ w.balance
  · rw [decrease_frozen_balance_ok s w d tx h]
    exact ⟨Function.update_noteq hb .., Function.update_noteq hb .., rfl⟩
  · rw [decrease_frozen_balance_err s w d tx h]
    exact ⟨rfl, rfl, rfl⟩

/-- Frame of `create_send_approve_transaction`: other accounts' wallets and
histories are untouched, and the registry changes at most at the supplied
transaction hash. -/
theorem create_send_approve_transaction_frame (s : LedgerState) (w : Wallet)
    (a to1 approver tx b : Nat) (hb : b ≠ w.owner) :
    ((stateOf (create_send_approve_transaction s w a to1 approver tx) s).wallets b =
        s.wallets b ∧
      (stateOf (create_send_approve_transaction s w a to1 approver tx) s).wallet_history b =
        s.wallet_history b) ∧
    (∀ h2, h2 ≠ tx →
      LedgerState.confirmed_transaction
          (stateOf (create_send_approve_transaction s w a to1 approver tx) s) h2 =
        s.confirmed_transaction h2) := by
  obtain ⟨e1, e2, e3⟩ := increase_frozen_balance_frame s w (toI64 a) tx b hb
  rcases hm : increase_frozen_balance s w (toI64 a) tx with e | s1
  · simp only [create_send_approve_transaction, hm]
    exact ⟨⟨rfl, rfl⟩, fun _ _ => rfl⟩
  · rw [hm] at e1 e2 e3
    simp only [create_send_approve_transaction, hm]
    simp only [stateOf] at e1 e2 e3 ⊢
    refine ⟨⟨e1, e2⟩, ?_⟩
    intro h2 hh2
    rw [Function.update_noteq hh2]
    exact congrFun e3 h2

/-- Frame of `create_wallet`. -/
theorem create_wallet_frame (s : LedgerState) (key : Nat) (nm : String) (tx b : Nat)
    (hb : b ≠ key) :
    (create_wallet s key nm tx).wallets b = s.wallets b ∧
    (create_wallet s key nm tx).wallet_history b = s.wallet_history b ∧
    (create_wallet s key nm tx).confirmed_transaction = s.confirmed_transaction := by
  simp only [create_wallet]
  exact ⟨Function.update_noteq hb .., Function.update_noteq hb .., by trivial⟩

/-- C10: every mutation operation touches exactly one account — the one named
by the supplied wallet's owner field (the key argument for `create_wallet`):
for every other address the stored wallet and the history log are unchanged,
and the confirmed-transaction registry is unchanged by every operation except
`create_send_approve_transaction`, which itself leaves every registry key
other than the supplied transaction hash unchanged. -/
theorem C10_single_account_frame (s : LedgerState) (w : Wallet) (a1 a2 d2 : Nat) (d : Int)
    (a3 to1 approver : Nat) (key : Nat) (nm : String) (tx b : Nat) :
    (b ≠ w.owner →
      (stateOf (increase_wallet_balance s w a1 tx) s).wallets b = s.wallets b ∧
      (stateOf (increase_wallet_balance s w a1 tx) s).wallet_history b =
        s.wallet_history b) ∧
    (stateOf (increase_wallet_balance s w a1 tx) s).confirmed_transaction =
      s.confirmed_transaction ∧
    (b ≠ w.owner →
      (stateOf (decrease_wallet_balance s w a2 tx) s).wallets b = s.wallets b ∧
      (stateOf (decrease_wallet_balance s w a2 tx) s).wallet_history b =
        s.wallet_history b) ∧
    (stateOf (decrease_wallet_balance s w a2 tx) s).confirmed_transaction =
      s.confirmed_transaction ∧
    (b ≠ w.owner →
      (stateOf (increase_frozen_balance s w d tx) s).wallets b = s.wallets b ∧
      (stateOf (increase_frozen_balance s w d tx) s).wallet_history b =
        s.wallet_history b) ∧
    (stateOf (increase_frozen_balance s w d tx) s).confirmed_transaction =
      s.confirmed_transaction ∧
    (b ≠ w.owner →
      (stateOf (decrease_frozen_balance s w d2 tx) s).wallets b = s.wallets b ∧
      (stateOf (decrease_frozen_balance s w d2 tx) s).wallet_history b =
        s.wallet_history b) ∧
    (stateOf (decrease_frozen_balance s w d2 tx) s).confirmed_transaction =
      s.confirmed_transaction ∧
    (b ≠ w.owner →
      (stateOf (create_send_approve_transaction s w a3 to1 approver tx) s).wallets b =
        s.wallets b ∧
      (stateOf (create_send_approve_transaction s w a3 to1 approver tx) s).wallet_history b =
        s.wallet_history b) ∧
    (∀ h2, h2 ≠ tx →
      LedgerState.confirmed_transaction
          (stateOf (create_send_approve_transaction s w a3 to1 approver tx) s) h2 =
        s.confirmed_transaction h2) ∧
    (b ≠ key →
      (create_wallet s key nm tx).wallets b = s.wallets b ∧
      (create_wallet s key nm tx).wallet_history b = s.wallet_history b) ∧
    (create_wallet s key nm tx).confirmed_transaction = s.confirmed_transaction := by
  refine ⟨fun hb => ⟨(increase_wallet_balance_frame s w a1 tx b hb).1,
      (increase_wallet_balance_frame s w a1 tx b hb).2.1⟩, ?_, ?_, ?_, ?_, ?_, ?_, ?_, ?_, ?_, ?_⟩
  · exact (increase_wallet_balance_frame s w a1 tx w.owner.succ (by omega)).2.2
  · intro hb
    exact ⟨(decrease_wallet_balance_frame s w a2 tx b hb).1,
      (decrease_wallet_balance_frame s w a2 tx b hb).2.1⟩
  · exact (decrease_wallet_balance_frame s w a2 tx w.owner.succ (by omega)).2.2
  · intro hb
    exact ⟨(increase_frozen_balance_frame s w d tx b hb).1,
      (increase_frozen_balance_frame s w d tx b hb).2.1⟩
  · exact (increase_frozen_balance_frame s w d tx w.owner.succ (by omega)).2.2
  · intro hb
    exact ⟨(decrease_frozen_balance_frame s w d2 tx b hb).1,
      (decrease_frozen_balance_frame s w d2 tx b hb).2.1⟩
  · exact (decrease_frozen_balance_frame s w d2 tx w.owner.succ (by omega)).2.2
  · intro hb
    exact (create_send_approve_transaction_frame s w a3 to1 approver tx b hb).1
  · exact (create_send_approve_transaction_frame s w a3 to1 approver tx w.owner.succ
      (by omega)).2
  · exact ⟨fun hb => ⟨(create_wallet_frame s key nm tx b hb).1,
      (create_wallet_frame s key nm tx b hb).2.1⟩,
      (create_wallet_frame s key nm tx key.succ (by omega)).2.2⟩

/-- Witness for C10 at a concrete input: address 9 differs from owner 0, so
none of its entries change under an applied `increase_wallet_balance` and an
applied `create_wallet` on account 0. -/
theorem C10_single_account_frame_witness :
    ((stateOf (increase_wallet_balance LedgerState.empty (Wallet.new 0 "alice" 100 0 1 0) 50 2)
        LedgerState.empty).wallets 9 = LedgerState.empty.wallets 9 ∧
      (stateOf (increase_wallet_balance LedgerState.empty (Wallet.new 0 "alice" 100 0 1 0) 50 2)
        LedgerState.empty).wallet_history 9 = LedgerState.empty.wallet_history 9) ∧
    ((create_wallet LedgerState.empty 0 "x" 2).wallets 9 = LedgerState.empty.wallets 9 ∧
      (create_wallet LedgerState.empty 0 "x" 2).wallet_history 9 =
        LedgerState.empty.wallet_history 9) :=
  ⟨(C10_single_account_frame LedgerState.empty (Wallet.new 0 "alice" 100 0 1 0) 50 0 0 0 0 0 0
      0 "x" 2 9).1 (by decide),
    (C10_single_account_frame LedgerState.empty (Wallet.new 0 "alice" 100 0 1 0) 50 0 0 0 0 0 0
      0 "x" 2 9).2.2.2.2.2.2.2.2.2.2.1 (by decide)⟩

end Exonum
